import Mathlib

/-!
# Verification of the json-grafico chart service (`src/app.py`)

Shallow embedding of the single-file Flask service:

* JSON values are modelled by the inductive type `Json` (numbers restricted to
  the integer literals the service's payloads use; `str` carries the raw
  characters).
* Python floats are modelled by `ℚ`; the builtin `float(str)` parser is
  modelled by `pyFloat` restricted to plain decimal literals with an optional
  sign (no exponents, `inf`/`nan`, underscores or non-ASCII digits; none of the
  service's documented inputs use those forms).
* The filesystem (the `graficos` output directory) is modelled as the list of
  path strings present on disk; `matplotlib` image content is out of scope, a
  render is observed only through the file it creates.
* Exceptions are modelled by `Except String`, the `String` being the message
  `str(e)` that the handler interpolates into 500 responses.
-/

/-- A JSON value as delivered by `request.get_json()`.  Object entries keep
their textual order (Python dicts preserve insertion order); numbers are
restricted to integer literals. -/
inductive Json where
  | null
  | bool (b : Bool)
  | int (n : ℤ)
  | str (s : String)
  | arr (elems : List Json)
  | obj (entries : List (String × Json))

mutual
/-- Structural equality of JSON values (Python `==` on the parsed payload,
eliding the numeric cross-type equalities `1 == True` that no documented
payload exercises). -/
def jsonBeq : Json → Json → Bool
  | .null, .null => true
  | .bool a, .bool b => a == b
  | .int a, .int b => a == b
  | .str a, .str b => a == b
  | .arr a, .arr b => jsonBeqList a b
  | .obj a, .obj b => jsonBeqEntries a b
  | _, _ => false

/-- Elementwise `jsonBeq` on arrays. -/
def jsonBeqList : List Json → List Json → Bool
  | [], [] => true
  | a :: as, b :: bs => jsonBeq a b && jsonBeqList as bs
  | _, _ => false

/-- Elementwise `jsonBeq` on object entry lists. -/
def jsonBeqEntries : List (String × Json) → List (String × Json) → Bool
  | [], [] => true
  | (k, v) :: as, (k', v') :: bs => k == k' && jsonBeq v v' && jsonBeqEntries as bs
  | _, _ => false
end

theorem jsonBeq_iff_aux :
    ∀ (n : ℕ) (a b : Json), sizeOf a ≤ n → (jsonBeq a b = true ↔ a = b) := by
  intro n
  induction n with
  | zero =>
    intro a b h
    exfalso
    cases a <;> simp at h
  | succ n ih =>
    intro a b ha
    have hlist : ∀ (l l' : List Json), (∀ x ∈ l, sizeOf x ≤ n) →
        (jsonBeqList l l' = true ↔ l = l') := by
      intro l
      induction l with
      | nil => intro l' _; cases l' <;> simp [jsonBeqList]
      | cons x xs ihx =>
        intro l' hx
        cases l' with
        | nil => simp [jsonBeqList]
        | cons y ys =>
          simp only [jsonBeqList, Bool.and_eq_true, List.cons.injEq]
          rw [ih x y (hx x (by simp)), ihx ys (fun z hz => hx z (by simp [hz]))]
    have hent : ∀ (l l' : List (String × Json)), (∀ x ∈ l, sizeOf x.2 ≤ n) →
        (jsonBeqEntries l l' = true ↔ l = l') := by
      intro l
      induction l with
      | nil => intro l' _; cases l' <;> simp [jsonBeqEntries]
      | cons x xs ihx =>
        intro l' hx
        cases l' with
        | nil =>
          obtain ⟨k, v⟩ := x
          simp [jsonBeqEntries]
        | cons y ys =>
          obtain ⟨k, v⟩ := x
          obtain ⟨k', v'⟩ := y
          simp only [jsonBeqEntries, Bool.and_eq_true, List.cons.injEq, Prod.mk.injEq,
            beq_iff_eq]
          rw [ih v v' (hx (k, v) (by simp)), ihx ys (fun z hz => hx z (by simp [hz]))]
    cases a with
    | null => cases b <;> simp [jsonBeq]
    | bool x => cases b <;> simp [jsonBeq]
    | int x => cases b <;> simp [jsonBeq]
    | str x => cases b <;> simp [jsonBeq]
    | arr l =>
      cases b with
      | arr l' =>
        have hsz : ∀ x ∈ l, sizeOf x ≤ n := by
          intro x hx
          have h1 := List.sizeOf_lt_of_mem hx
          have h2 : sizeOf (Json.arr l) = 1 + sizeOf l := by simp
          omega
        simpa only [jsonBeq, Json.arr.injEq] using hlist l l' hsz
      | null => simp [jsonBeq]
      | bool _ => simp [jsonBeq]
      | int _ => simp [jsonBeq]
      | str _ => simp [jsonBeq]
      | obj _ => simp [jsonBeq]
    | obj kvs =>
      cases b with
      | obj kvs' =>
        have hsz : ∀ x ∈ kvs, sizeOf x.2 ≤ n := by
          intro x hx
          have h1 := List.sizeOf_lt_of_mem hx
          have h2 : sizeOf (Json.obj kvs) = 1 + sizeOf kvs := by simp
          have h3 : sizeOf x.2 < sizeOf x := by
            obtain ⟨k, v⟩ := x
            simp
          omega
        simpa only [jsonBeq, Json.obj.injEq] using hent kvs kvs' hsz
      | null => simp [jsonBeq]
      | bool _ => simp [jsonBeq]
      | int _ => simp [jsonBeq]
      | str _ => simp [jsonBeq]
      | arr _ => simp [jsonBeq]

/-- The relation `jsonBeq` decides equality of JSON values. -/
theorem jsonBeq_iff (a b : Json) : jsonBeq a b = true ↔ a = b :=
  jsonBeq_iff_aux (sizeOf a) a b le_rfl

instance : DecidableEq Json := fun a b =>
  if h : jsonBeq a b = true then
    isTrue ((jsonBeq_iff a b).mp h)
  else
    isFalse (fun he => h ((jsonBeq_iff a b).mpr he))

/-- Python truthiness (`if not payload`, `if not noticias`, `if data_vpe`)
restricted to the shapes of `Json`. -/
def truthy : Json → Bool
  | .null => false
  | .bool b => b
  | .int n => n != 0
  | .str s => !s.isEmpty
  | .arr l => !l.isEmpty
  | .obj kvs => !kvs.isEmpty

/-- The quote character `'` used by Python `repr` of strings. -/
def quoteChar : Char := Char.ofNat 39

/-- Python `repr` of a string (quotes, escape subtleties elided). -/
def quoteStr (s : String) : List Char := quoteChar :: s.data ++ [quoteChar]

mutual
/-- Python `repr` of a JSON-shaped value, as used when a list or dict is
interpolated by `str` (`str([1, 2]) = "[1, 2]"`, `str({'a': 1}) = "{'a': 1}"`).
Only the leading bracket matters for the proofs (such strings never parse as
floats). -/
def pyRepr : Json → List Char
  | .null => "None".data
  | .bool true => "True".data
  | .bool false => "False".data
  | .int n => (toString n).data
  | .str s => quoteStr s
  | .arr l => '[' :: pyReprElems l ++ [']']
  | .obj kvs => Char.ofNat 123 :: pyReprEntries kvs ++ [Char.ofNat 125]

/-- Python `repr` of list elements, comma separated. -/
def pyReprElems : List Json → List Char
  | [] => []
  | [x] => pyRepr x
  | x :: y :: rest => pyRepr x ++ ", ".data ++ pyReprElems (y :: rest)

/-- Python `repr` of dict entries, comma separated. -/
def pyReprEntries : List (String × Json) → List Char
  | [] => []
  | [(k, v)] => quoteStr k ++ ": ".data ++ pyRepr v
  | (k, v) :: e :: rest =>
      quoteStr k ++ ": ".data ++ pyRepr v ++ ", ".data ++ pyReprEntries (e :: rest)
end

/-- Python `str(value)` on a JSON-shaped value. -/
def pyStr : Json → List Char
  | .null => "None".data
  | .bool true => "True".data
  | .bool false => "False".data
  | .int n => (toString n).data
  | .str s => s.data
  | .arr l => pyRepr (.arr l)
  | .obj kvs => pyRepr (.obj kvs)

/-- Python `str.strip()`: drop whitespace from both ends. -/
def pyStrip (l : List Char) : List Char :=
  ((l.dropWhile Char.isWhitespace).reverse.dropWhile Char.isWhitespace).reverse

/-- Numeric value of a run of ASCII digits (most significant first). -/
def digitsVal (l : List Char) : ℕ :=
  l.foldl (fun a c => 10 * a + (c.toNat - 48)) 0

/-- Addition of rationals through `mkRat`, so that concrete runs of the model
reduce inside the kernel (`Rat.add` is `@[irreducible]`); `qadd_eq` below
identifies it with `+`. -/
def qadd (a b : ℚ) : ℚ := mkRat (a.num * b.den + b.num * a.den) (a.den * b.den)

theorem qadd_eq (a b : ℚ) : qadd a b = a + b := by
  rw [qadd, Rat.add_def]
  simp [Rat.normalize_eq_mkRat]

/-- Negation of a rational through `mkRat` (kernel-evaluable, see `qadd`);
`qneg_eq` below identifies it with unary minus. -/
def qneg (q : ℚ) : ℚ := mkRat (-q.num) q.den

theorem qneg_eq (q : ℚ) : qneg q = -q := by
  rw [qneg, ← Rat.neg_mkRat, Rat.mkRat_self]

/-- Sum of a list of rationals (Python `sum(...)`), via `qadd`;
`qsum_eq` below identifies it with `List.sum`. -/
def qsum : List ℚ → ℚ
  | [] => 0
  | x :: rest => qadd x (qsum rest)

theorem qsum_eq (l : List ℚ) : qsum l = l.sum := by
  induction l with
  | nil => rfl
  | cons x rest ih => rw [qsum, qadd_eq, ih, List.sum_cons]

/-- Core of `float(s)` after the optional sign: `digits`, `digits.digits`,
`digits.` or `.digits` (at least one digit overall), otherwise a parse
failure.  The value of `a.b` is `a + b / 10 ^ len b`, built with `mkRat`
so that it reduces in the kernel (see `pyFloatCore_frac_value`). -/
def pyFloatCore (l : List Char) : Option ℚ :=
  let intPart := l.takeWhile Char.isDigit
  let rest := l.dropWhile Char.isDigit
  match rest with
  | [] => if intPart.isEmpty then none else some (digitsVal intPart : ℚ)
  | c :: frac =>
    if c == '.' && frac.all Char.isDigit && !(intPart.isEmpty && frac.isEmpty) then
      some (mkRat (digitsVal intPart * 10 ^ frac.length + digitsVal frac) (10 ^ frac.length))
    else
      none

/-- The `mkRat` expression in `pyFloatCore` is the usual decimal reading
`intpart + fracpart / 10 ^ (number of fractional digits)`. -/
theorem pyFloatCore_frac_value (i f k : ℕ) :
    (mkRat (i * 10 ^ k + f) (10 ^ k) : ℚ) = (i : ℚ) + (f : ℚ) / 10 ^ k := by
  rw [Rat.mkRat_eq_div]
  push_cast
  rw [add_div, mul_div_assoc, div_self (by positivity), mul_one]

/-- Python `float(s)` on the decimal-literal fragment (see module comment):
an optional single leading sign followed by `pyFloatCore`.  `none` models a
raised `ValueError`. -/
def pyFloat (l : List Char) : Option ℚ :=
  match l with
  | [] => none
  | c :: rest =>
    if c == '-' then (pyFloatCore rest).map qneg
    else if c == '+' then pyFloatCore rest
    else pyFloatCore (c :: rest)

/-- Split a character list on a separator character, Python `s.split('.')`
style: `splitOnChar '.' "".data = [[]]`, separators are not kept. -/
def splitOnChar (sep : Char) : List Char → List (List Char)
  | [] => [[]]
  | c :: rest =>
    let r := splitOnChar sep rest
    if c == sep then
      [] :: r
    else
      match r with
      | g :: gs => (c :: g) :: gs
      | [] => [[c]]

/-- The separator heuristics of `clean_value` (`src/app.py` lines 25–31):
a comma with no dot present becomes the decimal point (every comma is
replaced); otherwise, when the string contains dots and every dot-separated
group after the first has length exactly 3 (`all(len(p) == 3 for p in
parts[1:])`), the dots are removed (`string.replace('.', '')`). -/
def clean_transform (string : List Char) : List Char :=
  if string.contains ',' && !(string.contains '.') then
    string.map (fun c => if c == ',' then '.' else c)
  else if string.contains '.' then
    let parts := splitOnChar '.' string
    if (parts.drop 1).all (fun p => p.length == 3) then
      string.filter (fun c => c != '.')
    else
      string
  else
    string

/-- The function `clean_value` (`src/app.py` lines 20–35): `None → 0.0`; otherwise
`str(value).strip()` is run through the separator heuristics and `float`,
any parse failure being caught and replaced by `0.0`. -/
def clean_value (value : Json) : ℚ :=
  match value with
  | .null => 0
  | v => (pyFloat (clean_transform (pyStrip (pyStr v)))).getD 0

example : clean_value (.str "1.234.567") = 1234567 := by decide
example : clean_value (.str "123,45") = mkRat 12345 100 := by decide
example : clean_value .null = 0 := by decide
example : clean_value (.str "abc") = 0 := by decide
example : clean_value (.str "1,234,567") = 0 := by decide
example : clean_value (.str "12.34.567") = 0 := by decide
example : clean_value (.str ".-23") = mkRat (-23) 1 := by decide
example : clean_value (.int 7) = 7 := by decide
example : clean_value (.str " 10.000 ") = 10000 := by decide
example : clean_value (.arr [.int 1]) = 0 := by decide

/-! ## Aggregation and ranking (`top_vpe_por_medio`, `src/app.py` lines 145–159) -/

instance : BEq Json := ⟨jsonBeq⟩

instance : LawfulBEq Json where
  eq_of_beq h := (jsonBeq_iff _ _).mp h
  rfl := (jsonBeq_iff _ _).mpr rfl

/-- One step of the grouping loop
`vpe_por_titulo[titulo] = vpe_por_titulo.get(titulo, 0) + vpe`:
the entry with the given key is bumped, a missing key is appended (Python
dicts preserve insertion order; the dict is modelled as its ordered item
list). -/
def addVpe (acc : List (Json × ℚ)) (t : Json) (v : ℚ) : List (Json × ℚ) :=
  match acc with
  | [] => [(t, v)]
  | (t', v') :: rest =>
    if t' = t then (t', qadd v' v) :: rest else (t', v') :: addVpe rest t v

/-- The grouping loop of `top_vpe_por_medio` over the already extracted
`(titulo, clean_value(vpe))` pairs (the source interleaves the two `.get`
calls with the dict update; separating extraction from grouping preserves
the computed dict). -/
def vpe_por_titulo (noticias : List (Json × ℚ)) : List (Json × ℚ) :=
  noticias.foldl (fun acc n => addVpe acc n.1 n.2) []

/-- Stable insertion into a descending-by-value list: on ties the inserted
element (originally earlier) stays first, as Python's stable
`sorted(..., reverse=True)` does. -/
def insertDesc (x : Json × ℚ) : List (Json × ℚ) → List (Json × ℚ)
  | [] => [x]
  | y :: ys => if y.2 ≤ x.2 then x :: y :: ys else y :: insertDesc x ys

/-- Python `sorted(vpe_por_titulo.items(), key=lambda x: x[1], reverse=True)`:
Python's sort is stable, and a stable descending sort is extensionally
unique, so it is modelled by stable insertion sort. -/
def sortDesc : List (Json × ℚ) → List (Json × ℚ)
  | [] => []
  | x :: rest => insertDesc x (sortDesc rest)

/-- Python `sorted(...)[:10]` applied to the grouped dict: the ranking drawn by the
top-N chart. -/
def noticias_ordenadas (noticias : List (Json × ℚ)) : List (Json × ℚ) :=
  (sortDesc (vpe_por_titulo noticias)).take 10

/-- Descending order on the summed values. -/
def geSnd (a b : Json × ℚ) : Prop := b.2 ≤ a.2

theorem mem_insertDesc {z x : Json × ℚ} {l : List (Json × ℚ)} :
    z ∈ insertDesc x l ↔ z = x ∨ z ∈ l := by
  induction l with
  | nil => simp [insertDesc]
  | cons y ys ih =>
    by_cases h : y.2 ≤ x.2
    · simp [insertDesc, h]
    · simp [insertDesc, h, ih]
      tauto

theorem insertDesc_perm (x : Json × ℚ) (l : List (Json × ℚ)) :
    (insertDesc x l).Perm (x :: l) := by
  induction l with
  | nil => simp [insertDesc]
  | cons y ys ih =>
    by_cases h : y.2 ≤ x.2
    · simp [insertDesc, h]
    · rw [insertDesc, if_neg h]
      exact (ih.cons y).trans (List.Perm.swap x y ys)

theorem sortDesc_perm (l : List (Json × ℚ)) : (sortDesc l).Perm l := by
  induction l with
  | nil => simp [sortDesc]
  | cons x rest ih => exact (insertDesc_perm x (sortDesc rest)).trans (ih.cons x)

theorem pairwise_insertDesc {x : Json × ℚ} {l : List (Json × ℚ)}
    (h : l.Pairwise geSnd) : (insertDesc x l).Pairwise geSnd := by
  induction l with
  | nil => simp [insertDesc, geSnd]
  | cons y ys ih =>
    rcases List.pairwise_cons.mp h with ⟨hy, hys⟩
    by_cases hxy : y.2 ≤ x.2
    · rw [insertDesc, if_pos hxy]
      refine List.pairwise_cons.mpr ⟨?_, h⟩
      intro z hz
      rcases List.mem_cons.mp hz with rfl | hz
      · exact hxy
      · exact le_trans (hy z hz) hxy
    · rw [insertDesc, if_neg hxy]
      refine List.pairwise_cons.mpr ⟨?_, ih hys⟩
      intro z hz
      rcases mem_insertDesc.mp hz with rfl | hz
      · exact le_of_lt (lt_of_not_le hxy)
      · exact hy z hz

theorem pairwise_sortDesc (l : List (Json × ℚ)) : (sortDesc l).Pairwise geSnd := by
  induction l with
  | nil => simp [sortDesc]
  | cons x rest ih => exact pairwise_insertDesc ih

/-- The titles of a `(titulo, value)` pair list in first-occurrence order:
the key order of a Python dict built by repeated insertion. -/
def firstOccurrences : List Json → List Json
  | [] => []
  | t :: rest => t :: firstOccurrences (rest.filter (fun u => u != t))
termination_by l => l.length
decreasing_by
  simp only [List.length_cons]
  exact Nat.lt_succ_of_le (List.length_filter_le _ _)

/-- The summed value attached to one exact title. -/
def sumaTitulo (t : Json) (ns : List (Json × ℚ)) : ℚ :=
  ((ns.filter (fun n => n.1 == t)).map Prod.snd).sum

theorem sumaTitulo_nil (t : Json) : sumaTitulo t [] = 0 := rfl

theorem sumaTitulo_cons (t tn : Json) (vn : ℚ) (rest : List (Json × ℚ)) :
    sumaTitulo t ((tn, vn) :: rest) = (if tn = t then vn else 0) + sumaTitulo t rest := by
  by_cases h : tn = t <;> simp [sumaTitulo, List.filter_cons, h]

theorem mem_firstOccurrences_aux :
    ∀ (n : ℕ) (l : List Json), l.length ≤ n → ∀ t, t ∈ firstOccurrences l → t ∈ l := by
  intro n
  induction n with
  | zero =>
    intro l h t ht
    cases l with
    | nil => simp [firstOccurrences] at ht
    | cons a rest => simp at h
  | succ n ih =>
    intro l h t ht
    cases l with
    | nil => simp [firstOccurrences] at ht
    | cons a rest =>
      rw [firstOccurrences] at ht
      rcases List.mem_cons.mp ht with rfl | ht'
      · simp
      · have hlen : (rest.filter (fun u => u != a)).length ≤ n := by
          have := List.length_filter_le (fun u => u != a) rest
          simp only [List.length_cons] at h
          omega
        exact List.mem_cons_of_mem a (List.mem_of_mem_filter (ih _ hlen t ht'))

/-- Membership in the first-occurrence list implies membership in the
original list. -/
theorem mem_of_mem_firstOccurrences {t : Json} {l : List Json}
    (h : t ∈ firstOccurrences l) : t ∈ l :=
  mem_firstOccurrences_aux l.length l le_rfl t h

theorem addVpe_not_mem (acc : List (Json × ℚ)) (t : Json) (v : ℚ)
    (h : t ∉ acc.map Prod.fst) : addVpe acc t v = acc ++ [(t, v)] := by
  induction acc with
  | nil => rfl
  | cons p rest ih =>
    obtain ⟨t', v'⟩ := p
    simp only [List.map_cons, List.mem_cons] at h
    push_neg at h
    simp only [addVpe]
    rw [if_neg (fun he => h.1 he.symm), ih h.2]
    simp

theorem keys_update (acc : List (Json × ℚ)) (tn : Json) (vn : ℚ) :
    (acc.map (fun p => if p.1 = tn then (p.1, p.2 + vn) else p)).map Prod.fst =
      acc.map Prod.fst := by
  rw [List.map_map]
  apply List.map_congr_left
  intro p _
  by_cases h : p.1 = tn <;> simp [h]

theorem addVpe_mem (acc : List (Json × ℚ)) (t : Json) (v : ℚ)
    (hnd : (acc.map Prod.fst).Nodup) (h : t ∈ acc.map Prod.fst) :
    addVpe acc t v = acc.map (fun p => if p.1 = t then (p.1, p.2 + v) else p) := by
  induction acc with
  | nil => simp at h
  | cons p rest ih =>
    obtain ⟨t', v'⟩ := p
    simp only [List.map_cons, List.nodup_cons] at hnd
    by_cases he : t' = t
    · subst he
      simp only [addVpe, if_pos rfl, qadd_eq, List.map_cons, if_true]
      congr 1
      symm
      have hrest : ∀ p ∈ rest, (if p.1 = t' then (p.1, p.2 + v) else p) = p := by
        intro p hp
        rw [if_neg]
        intro hpt
        exact hnd.1 (hpt ▸ List.mem_map_of_mem Prod.fst hp)
      calc rest.map (fun p => if p.1 = t' then (p.1, p.2 + v) else p)
          = rest.map id := List.map_congr_left hrest
        _ = rest := List.map_id rest
    · simp only [addVpe, List.map_cons]
      rw [if_neg he, if_neg he]
      rcases List.mem_cons.mp h with h1 | h2
      · exact absurd h1.symm he
      · rw [ih hnd.2 h2]

/-- Invariant of the grouping fold: starting from a duplicate-free dict
`acc`, folding the remaining pairs bumps every existing entry by its title's
sum and appends the new titles in first-occurrence order, each with its
summed value. -/
theorem foldl_addVpe :
    ∀ (ns : List (Json × ℚ)) (acc : List (Json × ℚ)), (acc.map Prod.fst).Nodup →
    ns.foldl (fun a n => addVpe a n.1 n.2) acc =
      acc.map (fun p => (p.1, p.2 + sumaTitulo p.1 ns)) ++
      (firstOccurrences ((ns.map Prod.fst).filter
          (fun t => !(decide (t ∈ acc.map Prod.fst))))).map
        (fun t => (t, sumaTitulo t ns)) := by
  intro ns
  induction ns with
  | nil =>
    intro acc hnd
    simp [sumaTitulo, firstOccurrences]
  | cons n rest ih =>
    intro acc hnd
    obtain ⟨tn, vn⟩ := n
    rw [List.foldl_cons]
    by_cases hm : tn ∈ acc.map Prod.fst
    · rw [addVpe_mem acc tn vn hnd hm]
      rw [ih _ (by rw [keys_update]; exact hnd)]
      rw [keys_update]
      congr 1
      · rw [List.map_map]
        apply List.map_congr_left
        intro p _
        by_cases hp : p.1 = tn
        · have hp' : tn = p.1 := hp.symm
          simp [Function.comp, hp, sumaTitulo_cons, add_assoc]
        · have hp' : tn ≠ p.1 := fun h => hp h.symm
          simp [Function.comp, hp, hp', sumaTitulo_cons]
      · have hfil : (((tn, vn) :: rest).map Prod.fst).filter
            (fun t => !(decide (t ∈ acc.map Prod.fst))) =
            (rest.map Prod.fst).filter (fun t => !(decide (t ∈ acc.map Prod.fst))) := by
          simp [List.filter_cons, hm]
        rw [hfil]
        apply List.map_congr_left
        intro t ht
        have htf := mem_of_mem_firstOccurrences ht
        have htk : t ∉ acc.map Prod.fst := by
          have := List.of_mem_filter htf
          simpa using this
        have htn : tn ≠ t := fun h => htk (h ▸ hm)
        rw [sumaTitulo_cons, if_neg htn, zero_add]
    · rw [addVpe_not_mem acc tn vn hm]
      have hnd' : ((acc ++ [(tn, vn)]).map Prod.fst).Nodup := by
        simp only [List.map_append, List.map_cons, List.map_nil, List.nodup_append]
        refine ⟨hnd, List.nodup_singleton tn, ?_⟩
        intro a ha
        simp only [List.mem_singleton]
        intro he
        exact hm (he ▸ ha)
      rw [ih _ hnd']
      have hkeys : (acc ++ [(tn, vn)]).map Prod.fst = acc.map Prod.fst ++ [tn] := by
        simp
      rw [hkeys]
      have hfil : (((tn, vn) :: rest).map Prod.fst).filter
          (fun t => !(decide (t ∈ acc.map Prod.fst))) =
          tn :: ((rest.map Prod.fst).filter (fun t => !(decide (t ∈ acc.map Prod.fst)))) := by
        simp [List.filter_cons, hm]
      rw [hfil, firstOccurrences]
      have hff : ((rest.map Prod.fst).filter
            (fun t => !(decide (t ∈ acc.map Prod.fst)))).filter (fun u => u != tn) =
          (rest.map Prod.fst).filter (fun t => !(decide (t ∈ acc.map Prod.fst ++ [tn]))) := by
        rw [List.filter_filter]
        apply List.filter_congr
        intro a _
        by_cases h1 : a ∈ acc.map Prod.fst <;> by_cases h2 : a = tn <;>
          simp [h1, h2, List.mem_append]
      rw [hff]
      simp only [List.map_append, List.map_cons, List.map_nil, List.singleton_append,
        List.map_cons]
      rw [List.append_assoc, List.singleton_append]
      congr 1
      · apply List.map_congr_left
        intro p hp
        have hpk : p.1 ∈ acc.map Prod.fst := List.mem_map_of_mem Prod.fst hp
        have htn : tn ≠ p.1 := fun h => hm (h ▸ hpk)
        rw [sumaTitulo_cons, if_neg htn, zero_add]
      · congr 1
        · rw [sumaTitulo_cons, if_pos rfl]
        · apply List.map_congr_left
          intro t ht
          have htf := mem_of_mem_firstOccurrences ht
          have htp := List.of_mem_filter htf
          have htn : tn ≠ t := by
            intro h
            subst h
            simp [List.mem_append] at htp
          rw [sumaTitulo_cons, if_neg htn, zero_add]

/-- The grouping `vpe_por_titulo` computes exactly: the distinct titles in first-occurrence
order, each paired with the sum of its cleaned values. -/
theorem vpe_por_titulo_eq (ns : List (Json × ℚ)) :
    vpe_por_titulo ns =
      (firstOccurrences (ns.map Prod.fst)).map (fun t => (t, sumaTitulo t ns)) := by
  rw [vpe_por_titulo, foldl_addVpe ns [] (by simp)]
  simp

/-! ## Files, renderers and the HTTP layer -/

/-- The constant `GRAPH_DIR = "graficos"`. -/
def GRAPH_DIR : String := "graficos"

/-- The list `MEDIOS`, the fixed ordered channel enumeration. -/
def MEDIOS : List String := ["Medios Digitales", "Prensa", "Radio", "TV"]

/-- Python `os.path.join(GRAPH_DIR, name)`; a name with a leading slash is absolute
and replaces the directory, as `os.path.join` does. -/
def pathJoin (dir name : String) : String :=
  if name.data.head? = some '/' then name else dir ++ "/" ++ name

/-- The output directory, modelled as the list of file paths present on
disk. -/
abbrev FS := List String

/-- The helper `_save` (lines 38–42): after `fig.savefig(path)` the file exists; image
bytes are out of scope, overwriting leaves the path set unchanged. -/
def save (filename : String) (fs : FS) : FS :=
  if pathJoin GRAPH_DIR filename ∈ fs then fs else pathJoin GRAPH_DIR filename :: fs

/-- The renderer `bar_chart` (lines 46–76) as a file effect: returns without writing when
the mapping is empty or its values sum to zero, otherwise saves its file. -/
def bar_chart (data : List (String × ℚ)) (title filename : String) (fs : FS) : FS :=
  if data.isEmpty || (qsum (data.map Prod.snd) == 0) then fs else save filename fs

/-- The renderer `pie_chart` (lines 79–129) as a file effect: the same guard as
`bar_chart`, then a save. -/
def pie_chart (data : List (String × ℚ)) (title filename : String) (fs : FS) : FS :=
  if data.isEmpty || (qsum (data.map Prod.snd) == 0) then fs else save filename fs

/-- Python type names, used in the modelled exception messages. -/
def typeName : Json → String
  | .null => "NoneType"
  | .bool _ => "bool"
  | .int _ => "int"
  | .str _ => "str"
  | .arr _ => "list"
  | .obj _ => "dict"

/-- Python `d.get(key, default)`: dict lookup with default; on any non-dict an
`AttributeError` (exceptions are modelled by their `str(e)` message). -/
def jsonGet (d : Json) (key : String) (default : Json) : Except String Json :=
  match d with
  | .obj kvs => .ok (((kvs.find? (fun kv => kv.1 == key)).map Prod.snd).getD default)
  | _ => .error ("'" ++ typeName d ++ "' object has no attribute 'get'")

/-- Does `pat` occur at the head of `l`? -/
def listStarts (pat l : List Char) : Bool :=
  match pat, l with
  | [], _ => true
  | _ :: _, [] => false
  | p :: ps, c :: cs => p == c && listStarts ps cs

/-- Substring occurrence (Python `needle in haystack` on strings). -/
def listContains (pat : List Char) : List Char → Bool
  | [] => pat.isEmpty
  | c :: rest => listStarts pat (c :: rest) || listContains pat rest

/-- Python `key in container`: key membership on dicts, element membership
on lists, substring test on strings, `TypeError` otherwise. -/
def pyContains (key : String) (d : Json) : Except String Bool :=
  match d with
  | .obj kvs => .ok (kvs.any (fun kv => kv.1 == key))
  | .arr l => .ok (l.contains (Json.str key))
  | .str s => .ok (listContains key.data s.data)
  | _ => .error ("argument of type '" ++ typeName d ++ "' is not iterable")

/-- Python `container[key]` with a string key: dict lookup (`KeyError` when
missing), `TypeError` on every other shape. -/
def pySubscript (d : Json) (key : String) : Except String Json :=
  match d with
  | .obj kvs =>
    match kvs.find? (fun kv => kv.1 == key) with
    | some kv => .ok kv.2
    | none => .error ("KeyError: " ++ key)
  | .arr _ => .error "list indices must be integers or slices, not str"
  | .str _ => .error "string indices must be integers"
  | _ => .error ("'" ++ typeName d ++ "' object is not subscriptable")

/-- The `data_vpe` extraction loop (lines 231–237): per canonical channel,
`medio_data = datos.get(medio, {})`, test `"total_vpe" in medio_data`, clean
`medio_data["total_vpe"]`; dict insertion order follows `MEDIOS`. -/
def computeVpe (datos : Json) : Except String (List (String × ℚ)) :=
  MEDIOS.foldlM
    (fun acc medio => do
      let medio_data ← jsonGet datos medio (Json.obj [])
      let presente ← pyContains "total_vpe" medio_data
      if presente then
        let v ← pySubscript medio_data "total_vpe"
        pure (acc ++ [(medio, clean_value v)])
      else
        pure acc)
    []

/-- The `data_imp` extraction loop (lines 249–255): as `computeVpe` but from
`datos.get(f"{medio}_raw", {})` and key `total_vc`. -/
def computeImp (datos : Json) : Except String (List (String × ℚ)) :=
  MEDIOS.foldlM
    (fun acc medio => do
      let raw ← jsonGet datos (medio ++ "_raw") (Json.obj [])
      let presente ← pyContains "total_vc" raw
      if presente then
        let v ← pySubscript raw "total_vc"
        pure (acc ++ [(medio, clean_value v)])
      else
        pure acc)
    []

/-- Iteration `for n in noticias`, extracting `n.get('titulo', 'Sin Título')` and
`clean_value(n.get('vpe', 0))`: iterating a truthy string or dict yields
strings whose `.get` raises `AttributeError`; scalars are not iterable; a
list/dict title is unhashable and raises `TypeError` at the dict update. -/
def extraerNoticias : Json → Except String (List (Json × ℚ))
  | .arr l =>
    l.mapM (fun n => do
      let titulo ← jsonGet n "titulo" (Json.str "Sin Título")
      match titulo with
      | .arr _ => .error "unhashable type: 'list'"
      | .obj _ => .error "unhashable type: 'dict'"
      | _ => do
        let vpe ← jsonGet n "vpe" (Json.int 0)
        pure (titulo, clean_value vpe))
  | .str _ => .error "'str' object has no attribute 'get'"
  | .obj _ => .error "'str' object has no attribute 'get'"
  | d => .error ("'" ++ typeName d ++ "' object is not iterable")

/-- The filename `f"top10_vpe_{medio.lower().replace(' ', '_')}.png"`. -/
def topFile (medio : String) : String :=
  "top10_vpe_" ++
    String.mk (medio.data.map (fun c => if c == ' ' then '_' else c.toLower)) ++ ".png"

/-- The computation of `top_vpe_por_medio` before any drawing (lines
140–159): fetch `datos.get(f"{medio}_raw", {}).get("noticias", [])`, return
on a falsy value, extract the pairs, group, rank.  `none` means the function
returned without saving; `some` carries the drawn ranking. -/
def computeTop (datos : Json) (medio : String) :
    Except String (Option (List (Json × ℚ))) := do
  let raw ← jsonGet datos (medio ++ "_raw") (Json.obj [])
  let noticias ← jsonGet raw "noticias" (Json.arr [])
  if !truthy noticias then
    return none
  let pares ← extraerNoticias noticias
  let ordenadas := noticias_ordenadas pares
  if ordenadas.isEmpty then
    return none
  return some ordenadas

/-- The renderer `top_vpe_por_medio` as a file effect: the chart file is saved exactly
when a non-empty ranking was computed. -/
def top_vpe_por_medio (datos : Json) (medio : String) (fs : FS) : Except String FS := do
  match ← computeTop datos medio with
  | none => pure fs
  | some _ => pure (save (topFile medio) fs)

/-- The URL `f"{host_url}/grafico/{nombre}"`. -/
def graficoUrl (host name : String) : String := host ++ "/grafico/" ++ name

/-- An HTTP response of the POST handler: 200 with the generated-file URL
list, or an error status with its message. -/
inductive Response where
  | ok (archivos : List String)
  | err (status : ℕ) (error : String)
deriving DecidableEq

/-- The response `Error interno del servidor: {str(e)}` with status 500 (line 280). -/
def err500 (e : String) : Response := .err 500 ("Error interno del servidor: " ++ e)

/-- The `for medio in MEDIOS` tail of the handler (lines 266–270): render the
top chart, then append the URL exactly when the file exists on disk.  An
exception aborts the loop, keeping the files already written. -/
def topLoop (datos : Json) (host : String) :
    List String → FS → Except String (List String) × FS
  | [], fs => (.ok [], fs)
  | medio :: rest, fs =>
    match computeTop datos medio with
    | .error e => (.error e, fs)
    | .ok o =>
      let fs1 := match o with
        | none => fs
        | some _ => save (topFile medio) fs
      let urls :=
        if pathJoin GRAPH_DIR (topFile medio) ∈ fs1 then
          [graficoUrl host (topFile medio)]
        else []
      match topLoop datos host rest fs1 with
      | (.error e, fs2) => (.error e, fs2)
      | (.ok us, fs2) => (.ok (urls ++ us), fs2)

/-- The handler body after shape dispatch (lines 227–275): VPE charts and
URLs (appended when `data_vpe` is non-empty), impact charts and URLs, the
top-10 loop; any exception turns into the 500 response of line 280, keeping
the files written so far. -/
def processDatos (datos : Json) (host : String) (fs : FS) : Response × FS :=
  match computeVpe datos with
  | .error e => (err500 e, fs)
  | .ok data_vpe =>
    let fs1 := bar_chart data_vpe "VPE por Medio" "vpe_barra.png" fs
    let fs2 := pie_chart data_vpe "Distribución de VPE" "vpe_torta.png" fs1
    let urls1 := if data_vpe.isEmpty then [] else
      [graficoUrl host "vpe_barra.png", graficoUrl host "vpe_torta.png"]
    match computeImp datos with
    | .error e => (err500 e, fs2)
    | .ok data_imp =>
      let fs3 := bar_chart data_imp "Impactos por Medio" "impactos_barra.png" fs2
      let fs4 := pie_chart data_imp "Distribución de Impactos" "impactos_torta.png" fs3
      let urls2 := if data_imp.isEmpty then [] else
        [graficoUrl host "impactos_barra.png", graficoUrl host "impactos_torta.png"]
      match topLoop datos host MEDIOS fs4 with
      | (.error e, fs5) => (err500 e, fs5)
      | (.ok urls3, fs5) => (.ok (urls1 ++ urls2 ++ urls3), fs5)

/-- Flask `request.host_url.rstrip('/')`. -/
def rstripSlash (host : String) : String :=
  String.mk ((host.data.reverse.dropWhile (fun c => c == '/')).reverse)

/-- The handler `generar_graficos` (lines 207–280).  Modelled from the spec:
`request.get_json` is Flask code outside the repository; the spec's step
"Parse body as JSON; reject (400) if absent/invalid" is modelled by the
`Except`-valued `body` argument, whose failure reaches the handler's
JSON-decode-error clause (line 277).  Then the emptiness check (line 212),
the object/array dispatch (lines 218–225) and `processDatos`. -/
def generar_graficos (body : Except Unit Json) (host : String) (fs : FS) :
    Response × FS :=
  match body with
  | .error _ => (.err 400 "El cuerpo de la solicitud no es un JSON válido.", fs)
  | .ok payload =>
    if !truthy payload then
      (.err 400 "El cuerpo de la solicitud está vacío o no es JSON válido", fs)
    else
      match payload with
      | .arr (d :: _) => processDatos d (rstripSlash host) fs
      | .obj kvs => processDatos (.obj kvs) (rstripSlash host) fs
      | _ => (.err 400 "El formato del JSON no es ni un objeto ni una lista con un objeto.", fs)

/-- A response of the static file route: the file with its content type, or
an error status with its JSON error message. -/
inductive ServeResponse where
  | file (path mimetype : String)
  | err (status : ℕ) (error : String)
deriving DecidableEq

/-- The route `servir_grafico` (lines 282–287). -/
def servir_grafico (fs : FS) (nombre : String) : ServeResponse :=
  if pathJoin GRAPH_DIR nombre ∈ fs then
    .file (pathJoin GRAPH_DIR nombre) "image/png"
  else
    .err 404 "Archivo no encontrado"

instance {ε α : Type} [DecidableEq ε] [DecidableEq α] : DecidableEq (Except ε α) :=
  fun a b =>
    match a, b with
    | .ok a, .ok b => if h : a = b then isTrue (by rw [h]) else isFalse (by simp [h])
    | .error e, .error f => if h : e = f then isTrue (by rw [h]) else isFalse (by simp [h])
    | .ok _, .error _ => isFalse (by simp)
    | .error _, .ok _ => isFalse (by simp)

example :
    generar_graficos (.ok (Json.obj [("Prensa", Json.obj [("total_vpe", Json.str "0")])]))
      "http://x/" [] =
    (.ok ["http://x/grafico/vpe_barra.png", "http://x/grafico/vpe_torta.png"], []) := by
  decide

example :
    generar_graficos (.ok (.arr [.int 1])) "http://x" [] =
    (.err 500 "Error interno del servidor: 'int' object has no attribute 'get'", []) := by
  decide

example :
    top_vpe_por_medio
      (Json.obj [("TV_raw", Json.obj [("noticias",
        Json.arr [Json.obj [("titulo", Json.str "A"), ("vpe", Json.int 0)]])])])
      "TV" [] = .ok ["graficos/top10_vpe_tv.png"] := by
  decide

example :
    noticias_ordenadas [(Json.str "A", 100), (Json.str "A", 50), (Json.str "B", 30)] =
      [(Json.str "A", 150), (Json.str "B", 30)] := by
  decide

example :
    generar_graficos (.ok (.obj [("Prensa", .obj [("total_vpe", .str "10.000")]),
        ("TV", .obj [("total_vpe", .str "5.000")])])) "http://h" [] =
    (.ok ["http://h/grafico/vpe_barra.png", "http://h/grafico/vpe_torta.png"],
      ["graficos/vpe_torta.png", "graficos/vpe_barra.png"]) := by
  decide

example :
    generar_graficos (.ok (.obj [])) "h" [] =
    (.err 400 "El cuerpo de la solicitud está vacío o no es JSON válido", []) := by
  decide

example : servir_grafico ["graficos/a.png"] "a.png" = .file "graficos/a.png" "image/png" := by
  decide

example : servir_grafico [] "a.png" = .err 404 "Archivo no encontrado" := by decide

/-! ## The specification's locale decision rules (claim C1) -/

/-- The locale rules exactly as the claim states them: a comma with no dot
present becomes the decimal point; when the string contains a dot and the
TRAILING dot-separated group consists of exactly three DIGITS, the dots are
stripped as thousands markers; otherwise the string is parsed as is, with
`0.0` on failure. -/
def clean_value_locale_claim (s : List Char) : ℚ :=
  let t := pyStrip s
  if t.contains ',' && !(t.contains '.') then
    (pyFloat (t.map (fun c => if c == ',' then '.' else c))).getD 0
  else if t.contains '.' then
    let trailing := (splitOnChar '.' t).getLastD []
    if trailing.length == 3 && trailing.all Char.isDigit then
      (pyFloat (t.filter (fun c => c != '.'))).getD 0
    else
      (pyFloat t).getD 0
  else
    (pyFloat t).getD 0

/-- The locale rules as the code actually implements them: dots are stripped
exactly when EVERY dot-separated group after the first consists of exactly
three CHARACTERS (`all(len(p) == 3 for p in parts[1:])`). -/
def clean_value_locale_amended (s : List Char) : ℚ :=
  let t := pyStrip s
  if t.contains ',' && !(t.contains '.') then
    (pyFloat (t.map (fun c => if c == ',' then '.' else c))).getD 0
  else if t.contains '.' then
    if ((splitOnChar '.' t).drop 1).all (fun g => g.length == 3) then
      (pyFloat (t.filter (fun c => c != '.'))).getD 0
    else
      (pyFloat t).getD 0
  else
    (pyFloat t).getD 0

/-- C1, counterexample.  The claim's rules disagree with `clean_value` on
`"12.34.567"` (trailing group `567` is three digits, so the claim strips the
dots and yields `1234567.0`, while the code requires every group to have
length 3 and yields `0.0`) and on `".-23"` (trailing group `-23` is not three
digits, so the claim yields `0.0`, while the code checks length only, strips
the dot and yields `-23.0`). -/
theorem c1_locale_rules_counterexample :
    clean_value (.str "12.34.567") ≠ clean_value_locale_claim "12.34.567".data ∧
    clean_value (.str ".-23") ≠ clean_value_locale_claim ".-23".data ∧
    clean_value (.str "12.34.567") = 0 ∧
    clean_value_locale_claim "12.34.567".data = 1234567 ∧
    clean_value (.str ".-23") = mkRat (-23) 1 ∧
    clean_value_locale_claim ".-23".data = 0 := by
  decide

/-- C1, amended.  For every input string, `clean_value` follows the decision
rules with the strip condition "every dot-separated group after the first
has exactly three characters" (instead of "a trailing group of exactly three
digits"); the two concrete anchors of the claim hold as stated. -/
theorem c1_locale_rules :
    (∀ s : String, clean_value (.str s) = clean_value_locale_amended s.data) ∧
    clean_value (.str "1.234.567") = 1234567 ∧
    clean_value (.str "123,45") = 12345 / 100 := by
  refine ⟨?_, by decide, ?_⟩
  · intro s
    show (pyFloat (clean_transform (pyStrip s.data))).getD 0 = _
    simp only [clean_value_locale_amended, clean_transform]
    by_cases h1 : (pyStrip s.data).contains ',' && !((pyStrip s.data).contains '.')
    · simp only [h1, if_true]
    · simp only [h1, Bool.false_eq_true, if_false]
      by_cases h2 : (pyStrip s.data).contains '.'
      · simp only [h2, if_true]
        by_cases h3 : ((splitOnChar '.' (pyStrip s.data)).drop 1).all
            (fun p => p.length == 3)
        · simp only [h3, if_true]
        · simp only [h3, Bool.false_eq_true, if_false]
      · simp only [h2, Bool.false_eq_true, if_false]
  · have h : clean_value (.str "123,45") = mkRat 12345 100 := by decide
    rw [h, Rat.mkRat_eq_div]
    norm_num

/-! ## Counting lemmas for the comma-grouped case (claim C10) -/

theorem count_dropWhile (p : Char → Bool) (c : Char) (h : ∀ x, p x = true → x ≠ c) :
    ∀ l : List Char, (l.dropWhile p).count c = l.count c := by
  intro l
  induction l with
  | nil => rfl
  | cons a l ih =>
    rw [List.dropWhile_cons]
    by_cases hp : p a = true
    · rw [if_pos hp, ih, List.count_cons]
      have : ¬ (a == c) = true := by
        simp only [beq_iff_eq]
        exact h a hp
      simp [this]
    · rw [if_neg hp]

/-- Stripping whitespace does not change the number of occurrences of a
non-whitespace character. -/
theorem count_pyStrip (c : Char) (h : ¬ c.isWhitespace = true) (l : List Char) :
    (pyStrip l).count c = l.count c := by
  rw [pyStrip, List.count_reverse,
    count_dropWhile Char.isWhitespace c (fun x hx he => h (he ▸ hx)),
    List.count_reverse,
    count_dropWhile Char.isWhitespace c (fun x hx he => h (he ▸ hx))]

/-- Replacing commas by dots turns every comma into a dot. -/
theorem count_dot_commaMap (l : List Char) :
    (l.map (fun c => if c == ',' then '.' else c)).count '.' = l.count ',' + l.count '.' := by
  induction l with
  | nil => rfl
  | cons a l ih =>
    simp only [List.map_cons, List.count_cons, ih]
    by_cases h1 : a = ','
    · subst h1
      simp
      try omega
    · by_cases h2 : a = '.'
      · subst h2
        simp
        try omega
      · have h1' : (',' : Char) ≠ a := fun h => h1 h.symm
        have h2' : ('.' : Char) ≠ a := fun h => h2 h.symm
        simp [h1, h1', h2']
        try omega

theorem pyFloatCore_eq_none_of_two_dots (l : List Char) (h : 2 ≤ l.count '.') :
    pyFloatCore l = none := by
  have hsplit : (l.takeWhile Char.isDigit).count '.' + (l.dropWhile Char.isDigit).count '.' =
      l.count '.' := by
    rw [← List.count_append, List.takeWhile_append_dropWhile]
  have htake : (l.takeWhile Char.isDigit).count '.' = 0 := by
    rw [List.count_eq_zero]
    intro hmem
    have := List.mem_takeWhile_imp hmem
    simp at this
  have hdrop : 2 ≤ (l.dropWhile Char.isDigit).count '.' := by
    have h2 := hsplit
    rw [htake, Nat.zero_add] at h2
    rw [h2]
    exact h
  cases hrest : l.dropWhile Char.isDigit with
  | nil => rw [hrest] at hdrop; simp at hdrop
  | cons r frac =>
    rw [hrest] at hdrop
    simp only [pyFloatCore, hrest]
    by_cases hd : r = '.'
    · subst hd
      have hmem : '.' ∈ frac := by
        rw [List.count_cons_self] at hdrop
        exact List.count_pos_iff.mp (by omega)
      have hall : frac.all Char.isDigit = false := by
        by_contra hcon
        have h1 : frac.all Char.isDigit = true := by
          revert hcon
          cases frac.all Char.isDigit <;> simp
        have h2 := List.all_eq_true.mp h1 '.' hmem
        simp at h2
      simp [hall]
    · have hne : ¬ ((r == '.') = true) := by simp [hd]
      simp [hne]

theorem count_cons_ne_dot (d : Char) (l : List Char) (hne : d ≠ '.') :
    (d :: l).count '.' = l.count '.' := by
  rw [List.count_cons]
  simp [hne]

theorem pyFloat_eq_none_of_two_dots (l : List Char) (h : 2 ≤ l.count '.') :
    pyFloat l = none := by
  cases l with
  | nil => rfl
  | cons c rest =>
    rw [pyFloat]
    by_cases h1 : c = '-'
    · subst h1
      rw [count_cons_ne_dot '-' rest (by decide)] at h
      rw [if_pos (by decide)]
      rw [pyFloatCore_eq_none_of_two_dots rest h]
      rfl
    · rw [if_neg (by simp [h1])]
      by_cases h2 : c = '+'
      · subst h2
        rw [count_cons_ne_dot '+' rest (by decide)] at h
        rw [if_pos (by decide)]
        exact pyFloatCore_eq_none_of_two_dots rest h
      · rw [if_neg (by simp [h2])]
        exact pyFloatCore_eq_none_of_two_dots (c :: rest) h

/-- C10: a string with two or more commas and no dot has every comma replaced
by a dot, yielding at least two dots, which `float` rejects: `clean_value`
silently returns `0.0` instead of parsing comma-grouped thousands. -/
theorem c10_comma_grouped_zero (s : String) (hdot : '.' ∉ s.data)
    (hcomma : 2 ≤ s.data.count ',') : clean_value (.str s) = 0 := by
  show (pyFloat (clean_transform (pyStrip s.data))).getD 0 = 0
  have hdots : (pyStrip s.data).count '.' = 0 := by
    rw [count_pyStrip '.' (by decide), List.count_eq_zero]
    exact hdot
  have hcommas : 2 ≤ (pyStrip s.data).count ',' := by
    rw [count_pyStrip ',' (by decide)]
    exact hcomma
  have hmemc : ',' ∈ pyStrip s.data := List.count_pos_iff.mp (by omega)
  have hmemd : '.' ∉ pyStrip s.data := List.count_eq_zero.mp hdots
  have hcond : ((pyStrip s.data).contains ',' && !((pyStrip s.data).contains '.')) = true := by
    simp [List.contains, List.elem_eq_mem, hmemc, hmemd]
  rw [clean_transform, if_pos hcond]
  rw [pyFloat_eq_none_of_two_dots]
  · rfl
  · rw [count_dot_commaMap]
    omega

/-- Witness for C10 at `"1,234,567"`. -/
theorem c10_comma_grouped_zero_witness :
    '.' ∉ "1,234,567".data ∧ 2 ≤ "1,234,567".data.count ',' ∧
      clean_value (.str "1,234,567") = 0 :=
  ⟨by decide, by decide, c10_comma_grouped_zero "1,234,567" (by decide) (by decide)⟩

/-- C5: `clean_value` is a total function into the float model (it never
raises); `None` gives exactly `0.0`, the unparseable `"abc"` gives exactly
`0.0`, and any input whose transformed string fails float parsing gives
`0.0`. -/
theorem c5_clean_value_total :
    clean_value .null = 0 ∧
    clean_value (.str "abc") = 0 ∧
    (∀ v : Json, pyFloat (clean_transform (pyStrip (pyStr v))) = none →
      clean_value v = 0) := by
  refine ⟨by decide, by decide, ?_⟩
  intro v h
  cases v with
  | null => rfl
  | bool b => show (pyFloat _).getD 0 = 0; rw [h]; rfl
  | int n => show (pyFloat _).getD 0 = 0; rw [h]; rfl
  | str s => show (pyFloat _).getD 0 = 0; rw [h]; rfl
  | arr l => show (pyFloat _).getD 0 = 0; rw [h]; rfl
  | obj kvs => show (pyFloat _).getD 0 = 0; rw [h]; rfl

/-- Witness for C5 at the string `"x,y."`. -/
theorem c5_clean_value_total_witness :
    pyFloat (clean_transform (pyStrip (pyStr (.str "x,y.")))) = none ∧
      clean_value (.str "x,y.") = 0 :=
  ⟨by decide, c5_clean_value_total.2.2 (.str "x,y.") (by decide)⟩

/-- C9: `servir_grafico` serves the named file with `image/png` content type
when it exists in the output directory, and answers 404 with
`Archivo no encontrado` otherwise. -/
theorem c9_servir_grafico (fs : FS) (nombre : String) :
    (pathJoin GRAPH_DIR nombre ∈ fs →
      servir_grafico fs nombre = .file (pathJoin GRAPH_DIR nombre) "image/png") ∧
    (pathJoin GRAPH_DIR nombre ∉ fs →
      servir_grafico fs nombre = .err 404 "Archivo no encontrado") := by
  constructor <;> intro h <;> simp [servir_grafico, h]

/-- Witness for C9 with the file present and with it absent. -/
theorem c9_servir_grafico_witness :
    servir_grafico ["graficos/vpe_barra.png"] "vpe_barra.png" =
      .file (pathJoin GRAPH_DIR "vpe_barra.png") "image/png" ∧
    servir_grafico [] "vpe_barra.png" = .err 404 "Archivo no encontrado" :=
  ⟨(c9_servir_grafico ["graficos/vpe_barra.png"] "vpe_barra.png").1 (by decide),
   (c9_servir_grafico [] "vpe_barra.png").2 (by decide)⟩

/-- C2: the top-N logic groups by exact (case-sensitive) title in
first-occurrence order summing the cleaned `vpe` per title, ranks by a
descending stable sort of the summed values (a permutation of the groups),
returns at most 10 entries, and on the records
`[{titulo:"A",vpe:"100"},{titulo:"A",vpe:"50"},{titulo:"B",vpe:"30"}]`
extracted as the code does, the ranking is `[("A",150.0),("B",30.0)]`. -/
theorem c2_top_ranking :
    (∀ ns : List (Json × ℚ), vpe_por_titulo ns =
        (firstOccurrences (ns.map Prod.fst)).map (fun t => (t, sumaTitulo t ns))) ∧
    (∀ ns : List (Json × ℚ), (noticias_ordenadas ns).Pairwise geSnd) ∧
    (∀ ns : List (Json × ℚ), (noticias_ordenadas ns).length ≤ 10) ∧
    (∀ ns : List (Json × ℚ), (sortDesc (vpe_por_titulo ns)).Perm (vpe_por_titulo ns)) ∧
    (extraerNoticias (Json.arr
        [Json.obj [("titulo", Json.str "A"), ("vpe", Json.str "100")],
         Json.obj [("titulo", Json.str "A"), ("vpe", Json.str "50")],
         Json.obj [("titulo", Json.str "B"), ("vpe", Json.str "30")]])).map
      noticias_ordenadas =
      .ok [(Json.str "A", 150), (Json.str "B", 30)] := by
  refine ⟨vpe_por_titulo_eq, ?_, ?_, fun ns => sortDesc_perm (vpe_por_titulo ns), by decide⟩
  · intro ns
    exact (pairwise_sortDesc (vpe_por_titulo ns)).sublist (List.take_sublist _ _)
  · intro ns
    exact List.length_take_le _ _

/-- C3, counterexample.  A nonempty article list whose values are all zero is
NOT skipped by `top_vpe_por_medio`: the ranking `[("A", 0)]` is nonempty, so
the chart file is created, although the claim says no output file appears for
all-zero input. -/
theorem c3_renderer_noop_counterexample :
    computeTop
        (Json.obj [("TV_raw", Json.obj [("noticias",
          Json.arr [Json.obj [("titulo", Json.str "A"), ("vpe", Json.int 0)]])])])
        "TV" = .ok (some [(Json.str "A", 0)]) ∧
    top_vpe_por_medio
        (Json.obj [("TV_raw", Json.obj [("noticias",
          Json.arr [Json.obj [("titulo", Json.str "A"), ("vpe", Json.int 0)]])])])
        "TV" [] = .ok ["graficos/top10_vpe_tv.png"] := by
  decide

/-- C3, amended: `bar_chart` and `pie_chart` write no file and raise nothing
on an empty or all-zero mapping; `top_vpe_por_medio` writes no file and
raises nothing when the extracted `noticias` value is the empty list (also
when the keys are missing, since the defaults produce exactly that) — but a
nonempty all-zero article list does write its file. -/
theorem c3_renderer_noop :
    (∀ (data : List (String × ℚ)) (title filename : String) (fs : FS),
        (∀ v ∈ data.map Prod.snd, v = 0) → bar_chart data title filename fs = fs) ∧
    (∀ (data : List (String × ℚ)) (title filename : String) (fs : FS),
        (∀ v ∈ data.map Prod.snd, v = 0) → pie_chart data title filename fs = fs) ∧
    (∀ (datos : Json) (medio : String) (fs : FS) (raw : Json),
        jsonGet datos (medio ++ "_raw") (Json.obj []) = .ok raw →
        jsonGet raw "noticias" (Json.arr []) = .ok (Json.arr []) →
        top_vpe_por_medio datos medio fs = .ok fs) := by
  refine ⟨?_, ?_, ?_⟩
  · intro data title filename fs h
    have hz : qsum (data.map Prod.snd) = 0 := by
      rw [qsum_eq]
      exact List.sum_eq_zero h
    simp [bar_chart, hz]
  · intro data title filename fs h
    have hz : qsum (data.map Prod.snd) = 0 := by
      rw [qsum_eq]
      exact List.sum_eq_zero h
    simp [pie_chart, hz]
  · intro datos medio fs raw h1 h2
    have hb : ∀ {α β : Type} (a : α) (f : α → Except String β),
        (Except.ok a >>= f) = f a := fun _ _ => rfl
    have hct : computeTop datos medio = .ok none := by
      simp only [computeTop, h1, hb, h2, truthy]
      simp
      rfl
    simp only [top_vpe_por_medio, hct, hb]
    rfl

/-- Witness for C3 at an all-zero mapping and an articles-free document. -/
theorem c3_renderer_noop_witness :
    bar_chart [("Prensa", 0)] "VPE por Medio" "vpe_barra.png" [] = [] ∧
    pie_chart [("Prensa", 0)] "Distribución de VPE" "vpe_torta.png" [] = [] ∧
    top_vpe_por_medio (Json.obj []) "TV" [] = .ok [] :=
  ⟨c3_renderer_noop.1 [("Prensa", 0)] "VPE por Medio" "vpe_barra.png" [] (by decide),
   c3_renderer_noop.2.1 [("Prensa", 0)] "Distribución de VPE" "vpe_torta.png" [] (by decide),
   c3_renderer_noop.2.2 (Json.obj []) "TV" [] (Json.obj []) (by decide) (by decide)⟩

/-- C4: on the payload `{"Prensa": {"total_vpe": "0"}}` over an empty output
directory, the handler answers 200 listing the two VPE-chart URLs although
both renderers skipped (zero sum) and the directory is still empty — the
URL list does not match the files on disk. -/
theorem c4_urls_despite_missing_files :
    generar_graficos
        (.ok (Json.obj [("Prensa", Json.obj [("total_vpe", Json.str "0")])]))
        "http://x" [] =
      (.ok ["http://x/grafico/vpe_barra.png", "http://x/grafico/vpe_torta.png"], []) := by
  decide

/-- The HTTP status of a handler response. -/
def Response.status : Response → ℕ
  | .ok _ => 200
  | .err s _ => s

/-- Reduction of a successful `Except` bind (the do-notation of the model). -/
theorem except_ok_bind {α β : Type} (a : α) (f : α → Except String β) :
    (Except.ok a >>= f) = f a := rfl

/-- C6: the handler's error taxonomy.  A JSON-decode failure of the body gets
the fixed 400 message of the `json.JSONDecodeError` clause; an exception in
the first extraction loop gets status 500 carrying
`Error interno del servidor: ` followed by `str(e)`; and in general the
handler body only ever answers 200 or such a 500. -/
theorem c6_error_responses :
    (∀ (host : String) (fs : FS), generar_graficos (.error ()) host fs =
      (.err 400 "El cuerpo de la solicitud no es un JSON válido.", fs)) ∧
    (∀ (datos : Json) (host : String) (fs : FS) (e : String),
      computeVpe datos = .error e →
      (processDatos datos host fs).1 = .err 500 ("Error interno del servidor: " ++ e)) ∧
    (∀ (datos : Json) (host : String) (fs : FS),
      (∃ urls, (processDatos datos host fs).1 = .ok urls) ∨
      (∃ e, (processDatos datos host fs).1 =
        .err 500 ("Error interno del servidor: " ++ e))) := by
  refine ⟨fun host fs => rfl, ?_, ?_⟩
  · intro datos host fs e h
    simp [processDatos, h, err500]
  · intro datos host fs
    simp only [processDatos]
    split
    · right; exact ⟨_, rfl⟩
    · split
      · right; exact ⟨_, rfl⟩
      · split
        · right; exact ⟨_, rfl⟩
        · left; exact ⟨_, rfl⟩

/-- Witness for C6: a non-dict payload object raises `AttributeError` in the
extraction loop and surfaces as a 500 with the message embedded. -/
theorem c6_error_responses_witness :
    computeVpe (.int 1) = .error "'int' object has no attribute 'get'" ∧
    (processDatos (.int 1) "h" []).1 =
      .err 500 ("Error interno del servidor: " ++ "'int' object has no attribute 'get'") :=
  ⟨by decide, c6_error_responses.2.1 (.int 1) "h" [] _ (by decide)⟩

/-- C7, counterexample.  POSTing the array `[1]` — a non-empty array whose
first element is not an object — is not rejected with 400: the handler
processes the first element, `datos.get` raises `AttributeError`, and the
response is a 500. -/
theorem c7_shape_counterexample :
    ((generar_graficos (.ok (.arr [.int 1])) "http://x" []).1).status = 500 ∧
    (generar_graficos (.ok (.arr [.int 1])) "http://x" []).1 =
      .err 500 "Error interno del servidor: 'int' object has no attribute 'get'" := by
  decide

/-- C7, amended: a single object and a non-empty array are both accepted, an
array being processed through its FIRST element whatever it is (no check
that it is an object — a non-object first element proceeds and ends in a
500, not a 400); `{}` and every other falsy payload get the fixed 400
empty-body message; a truthy payload that is neither an object nor an array
gets the fixed 400 shape message. -/
theorem c7_payload_shapes :
    (∀ (kvs : List (String × Json)) (rest : List Json) (host : String) (fs : FS),
        kvs ≠ [] →
        generar_graficos (.ok (.arr (.obj kvs :: rest))) host fs =
          generar_graficos (.ok (.obj kvs)) host fs) ∧
    (∀ (host : String) (fs : FS),
        generar_graficos (.ok (.obj [])) host fs =
          (.err 400 "El cuerpo de la solicitud está vacío o no es JSON válido", fs)) ∧
    (∀ (p : Json) (host : String) (fs : FS), truthy p = false →
        generar_graficos (.ok p) host fs =
          (.err 400 "El cuerpo de la solicitud está vacío o no es JSON válido", fs)) ∧
    (∀ (p : Json) (host : String) (fs : FS), truthy p = true →
        (∀ kvs, p ≠ .obj kvs) → (∀ l, p ≠ .arr l) →
        generar_graficos (.ok p) host fs =
          (.err 400 "El formato del JSON no es ni un objeto ni una lista con un objeto.",
            fs)) ∧
    (∀ (d : Json) (rest : List Json) (host : String) (fs : FS),
        generar_graficos (.ok (.arr (d :: rest))) host fs =
          processDatos d (rstripSlash host) fs) := by
  refine ⟨?_, fun host fs => rfl, ?_, ?_, ?_⟩
  · intro kvs rest host fs h
    simp [generar_graficos, truthy, h]
  · intro p host fs h
    simp [generar_graficos, h]
  · intro p host fs ht h1 h2
    cases p with
    | null => simp [truthy] at ht
    | bool b =>
      simp only [truthy] at ht
      simp [generar_graficos, truthy, ht]
    | int n =>
      simp only [truthy] at ht
      simp [generar_graficos, truthy, ht]
    | str s =>
      simp only [truthy] at ht
      simp [generar_graficos, truthy, ht]
    | arr l => exact absurd rfl (h2 l)
    | obj kvs => exact absurd rfl (h1 kvs)
  · intro d rest host fs
    simp [generar_graficos, truthy]

/-- Witness for C7: the array and object forms of one payload coincide, a
falsy scalar gets the empty-body 400, a truthy scalar the shape 400. -/
theorem c7_payload_shapes_witness :
    generar_graficos (.ok (.arr [.obj [("a", Json.int 1)], .int 2])) "http://h" [] =
      generar_graficos (.ok (.obj [("a", Json.int 1)])) "http://h" [] ∧
    generar_graficos (.ok (.int 0)) "h" [] =
      (.err 400 "El cuerpo de la solicitud está vacío o no es JSON válido", []) ∧
    generar_graficos (.ok (.int 5)) "h" [] =
      (.err 400 "El formato del JSON no es ni un objeto ni una lista con un objeto.", []) :=
  ⟨c7_payload_shapes.1 [("a", Json.int 1)] [.int 2] "http://h" [] (by decide),
   c7_payload_shapes.2.2.1 (.int 0) "h" [] (by decide),
   c7_payload_shapes.2.2.2.1 (.int 5) "h" [] (by decide)
     (fun kvs h => Json.noConfusion h) (fun l h => Json.noConfusion h)⟩

/-! ## Stability of the handler across repeated invocations (claim C8) -/

theorem mem_save (p f : String) (fs : FS) :
    p ∈ save f fs ↔ p = pathJoin GRAPH_DIR f ∨ p ∈ fs := by
  rw [save]
  split
  · rename_i h
    constructor
    · exact Or.inr
    · rintro (rfl | hp)
      · exact h
      · assumption
  · exact List.mem_cons

theorem save_subset (f : String) (fs : FS) : ∀ p ∈ fs, p ∈ save f fs :=
  fun p hp => (mem_save p f fs).mpr (Or.inr hp)

theorem save_eq_of_mem (f : String) (fs : FS) (h : pathJoin GRAPH_DIR f ∈ fs) :
    save f fs = fs := by
  rw [save, if_pos h]

theorem bar_chart_subset (d : List (String × ℚ)) (t f : String) (fs : FS) :
    ∀ p ∈ fs, p ∈ bar_chart d t f fs := by
  intro p hp
  rw [bar_chart]
  split
  · exact hp
  · exact save_subset f fs p hp

theorem pie_chart_subset (d : List (String × ℚ)) (t f : String) (fs : FS) :
    ∀ p ∈ fs, p ∈ pie_chart d t f fs := by
  intro p hp
  rw [pie_chart]
  split
  · exact hp
  · exact save_subset f fs p hp

theorem bar_chart_eq_of_mem (d : List (String × ℚ)) (t f : String) (fs : FS)
    (h : pathJoin GRAPH_DIR f ∈ fs) : bar_chart d t f fs = fs := by
  rw [bar_chart]
  split
  · rfl
  · exact save_eq_of_mem f fs h

theorem pie_chart_eq_of_mem (d : List (String × ℚ)) (t f : String) (fs : FS)
    (h : pathJoin GRAPH_DIR f ∈ fs) : pie_chart d t f fs = fs := by
  rw [pie_chart]
  split
  · rfl
  · exact save_eq_of_mem f fs h

theorem mem_bar_chart_of_ne (d : List (String × ℚ)) (t f : String) (fs : FS)
    (p : String) (h : p ≠ pathJoin GRAPH_DIR f) : p ∈ bar_chart d t f fs ↔ p ∈ fs := by
  rw [bar_chart]
  split
  · exact Iff.rfl
  · rw [mem_save]
    exact or_iff_right h

theorem mem_pie_chart_of_ne (d : List (String × ℚ)) (t f : String) (fs : FS)
    (p : String) (h : p ≠ pathJoin GRAPH_DIR f) : p ∈ pie_chart d t f fs ↔ p ∈ fs := by
  rw [pie_chart]
  split
  · exact Iff.rfl
  · rw [mem_save]
    exact or_iff_right h

theorem topLoop_subset (datos : Json) (host : String) :
    ∀ (ms : List String) (fs : FS), ∀ p ∈ fs, p ∈ (topLoop datos host ms fs).2 := by
  intro ms
  induction ms with
  | nil => intro fs p hp; exact hp
  | cons medio rest ih =>
    intro fs p hp
    rw [topLoop]
    split
    · exact hp
    · rename_i o heq
      dsimp only
      have hp1 : p ∈ (match o with
          | none => fs
          | some _ => save (topFile medio) fs) := by
        cases o with
        | none => exact hp
        | some r => exact save_subset _ _ p hp
      have hrec := ih _ p hp1
      split
      · rename_i e fs2 heq2
        rw [heq2] at hrec
        exact hrec
      · rename_i us fs2 heq2
        rw [heq2] at hrec
        exact hrec

/-- Does `top_vpe_por_medio` write its file for this document and channel? -/
def topWrites (datos : Json) (medio : String) : Bool :=
  match computeTop datos medio with
  | .ok (some _) => true
  | _ => false

/-- The URL/error component of the top-chart loop reads the filesystem only
through the existence tests of the channels it does not write. -/
theorem topLoop_fst_congr (datos : Json) (host : String) :
    ∀ (ms : List String) (fs fs' : FS),
      (∀ m ∈ ms, topWrites datos m = false →
        (pathJoin GRAPH_DIR (topFile m) ∈ fs ↔ pathJoin GRAPH_DIR (topFile m) ∈ fs')) →
      (topLoop datos host ms fs).1 = (topLoop datos host ms fs').1 := by
  intro ms
  induction ms with
  | nil => intro fs fs' h; rfl
  | cons medio rest ih =>
    intro fs fs' h
    rw [topLoop, topLoop]
    split
    · rfl
    · rename_i o heq
      dsimp only
      cases o with
      | none =>
        have hw : topWrites datos medio = false := by simp [topWrites, heq]
        have hmem := h medio (by simp) hw
        have hurls : (if pathJoin GRAPH_DIR (topFile medio) ∈ fs then
              [graficoUrl host (topFile medio)] else []) =
            (if pathJoin GRAPH_DIR (topFile medio) ∈ fs' then
              [graficoUrl host (topFile medio)] else []) := by
          by_cases hm : pathJoin GRAPH_DIR (topFile medio) ∈ fs
          · rw [if_pos hm, if_pos (hmem.mp hm)]
          · rw [if_neg hm, if_neg (fun hx => hm (hmem.mpr hx))]
        have hrec := ih fs fs' (fun m hm hw' => h m (by simp [hm]) hw')
        cases h1 : topLoop datos host rest fs with
        | mk res1 fsa =>
          cases h2 : topLoop datos host rest fs' with
          | mk res2 fsb =>
            rw [h1, h2] at hrec
            dsimp only at hrec
            subst hrec
            cases res1 with
            | error e => rfl
            | ok us => dsimp only; rw [hurls]
      | some r =>
        have hm1 : pathJoin GRAPH_DIR (topFile medio) ∈ save (topFile medio) fs :=
          (mem_save _ _ _).mpr (Or.inl rfl)
        have hm2 : pathJoin GRAPH_DIR (topFile medio) ∈ save (topFile medio) fs' :=
          (mem_save _ _ _).mpr (Or.inl rfl)
        rw [if_pos hm1, if_pos hm2]
        have hrec := ih (save (topFile medio) fs) (save (topFile medio) fs')
          (fun m hm hw' => by
            rw [mem_save, mem_save]
            exact or_congr_right (h m (by simp [hm]) hw'))
        cases h1 : topLoop datos host rest (save (topFile medio) fs) with
        | mk res1 fsa =>
          cases h2 : topLoop datos host rest (save (topFile medio) fs') with
          | mk res2 fsb =>
            rw [h1, h2] at hrec
            dsimp only at hrec
            subst hrec
            cases res1 with
            | error e => rfl
            | ok us => rfl

/-- A file that no channel of the loop writes is in the final filesystem of
the loop exactly when it was there initially. -/
theorem topLoop_snd_mem (datos : Json) (host : String) :
    ∀ (ms : List String) (fs : FS) (p : String),
      (∀ m ∈ ms, topWrites datos m = true → p ≠ pathJoin GRAPH_DIR (topFile m)) →
      (p ∈ (topLoop datos host ms fs).2 ↔ p ∈ fs) := by
  intro ms
  induction ms with
  | nil => intro fs p h; exact Iff.rfl
  | cons medio rest ih =>
    intro fs p h
    rw [topLoop]
    split
    · exact Iff.rfl
    · rename_i o heq
      dsimp only
      cases o with
      | none =>
        have hrec := ih fs p (fun m hm => h m (by simp [hm]))
        split
        · rename_i e fs2 heq2
          rw [heq2] at hrec
          exact hrec
        · rename_i us fs2 heq2
          rw [heq2] at hrec
          exact hrec
      | some r =>
        have hw : topWrites datos medio = true := by simp [topWrites, heq]
        have hne := h medio (by simp) hw
        have hstep : p ∈ save (topFile medio) fs ↔ p ∈ fs := by
          rw [mem_save]
          exact or_iff_right hne
        have hrec := ih (save (topFile medio) fs) p (fun m hm => h m (by simp [hm]))
        split
        · rename_i e fs2 heq2
          rw [heq2] at hrec
          exact hrec.trans hstep
        · rename_i us fs2 heq2
          rw [heq2] at hrec
          exact hrec.trans hstep

/-- The four top-chart paths are distinct across the channel enumeration. -/
theorem topFile_inj_on_medios :
    ∀ m ∈ MEDIOS, ∀ m' ∈ MEDIOS,
      pathJoin GRAPH_DIR (topFile m) = pathJoin GRAPH_DIR (topFile m') → m = m' := by
  decide

/-- No top-chart path collides with the four fixed chart paths. -/
theorem topFile_ne_chartFiles :
    ∀ m ∈ MEDIOS,
      pathJoin GRAPH_DIR (topFile m) ≠ pathJoin GRAPH_DIR "vpe_barra.png" ∧
      pathJoin GRAPH_DIR (topFile m) ≠ pathJoin GRAPH_DIR "vpe_torta.png" ∧
      pathJoin GRAPH_DIR (topFile m) ≠ pathJoin GRAPH_DIR "impactos_barra.png" ∧
      pathJoin GRAPH_DIR (topFile m) ≠ pathJoin GRAPH_DIR "impactos_torta.png" := by
  decide

/-- Membership through the four chart renders of the handler, for a path
distinct from the four chart paths. -/
theorem mem_charts_of_ne (dv di : List (String × ℚ)) (fs : FS) (p : String)
    (h1 : p ≠ pathJoin GRAPH_DIR "vpe_barra.png")
    (h2 : p ≠ pathJoin GRAPH_DIR "vpe_torta.png")
    (h3 : p ≠ pathJoin GRAPH_DIR "impactos_barra.png")
    (h4 : p ≠ pathJoin GRAPH_DIR "impactos_torta.png") :
    p ∈ pie_chart di "Distribución de Impactos" "impactos_torta.png"
        (bar_chart di "Impactos por Medio" "impactos_barra.png"
          (pie_chart dv "Distribución de VPE" "vpe_torta.png"
            (bar_chart dv "VPE por Medio" "vpe_barra.png" fs))) ↔ p ∈ fs := by
  rw [mem_pie_chart_of_ne _ _ _ _ _ h4, mem_bar_chart_of_ne _ _ _ _ _ h3,
    mem_pie_chart_of_ne _ _ _ _ _ h2, mem_bar_chart_of_ne _ _ _ _ _ h1]

/-- Re-running the handler body on the filesystem its first run left behind
produces the same response. -/
theorem processDatos_fst_stable (datos : Json) (host : String) (fs : FS) :
    (processDatos datos host (processDatos datos host fs).2).1 =
      (processDatos datos host fs).1 := by
  cases hV : computeVpe datos with
  | error e => simp [processDatos, hV]
  | ok dv =>
    cases hI : computeImp datos with
    | error e => simp [processDatos, hV, hI]
    | ok di =>
      simp only [processDatos, hV, hI]
      cases hTL : topLoop datos host MEDIOS
          (pie_chart di "Distribución de Impactos" "impactos_torta.png"
            (bar_chart di "Impactos por Medio" "impactos_barra.png"
              (pie_chart dv "Distribución de VPE" "vpe_torta.png"
                (bar_chart dv "VPE por Medio" "vpe_barra.png" fs)))) with
      | mk res fs5 =>
        have hfst : (topLoop datos host MEDIOS
            (pie_chart di "Distribución de Impactos" "impactos_torta.png"
              (bar_chart di "Impactos por Medio" "impactos_barra.png"
                (pie_chart dv "Distribución de VPE" "vpe_torta.png"
                  (bar_chart dv "VPE por Medio" "vpe_barra.png" fs5))))).1 = res := by
          have hcong : ∀ m ∈ MEDIOS, topWrites datos m = false →
              (pathJoin GRAPH_DIR (topFile m) ∈
                pie_chart di "Distribución de Impactos" "impactos_torta.png"
                  (bar_chart di "Impactos por Medio" "impactos_barra.png"
                    (pie_chart dv "Distribución de VPE" "vpe_torta.png"
                      (bar_chart dv "VPE por Medio" "vpe_barra.png" fs5))) ↔
               pathJoin GRAPH_DIR (topFile m) ∈
                pie_chart di "Distribución de Impactos" "impactos_torta.png"
                  (bar_chart di "Impactos por Medio" "impactos_barra.png"
                    (pie_chart dv "Distribución de VPE" "vpe_torta.png"
                      (bar_chart dv "VPE por Medio" "vpe_barra.png" fs)))) := by
            intro m hm hw
            have hd := topFile_ne_chartFiles m hm
            rw [mem_charts_of_ne dv di fs5 _ hd.1 hd.2.1 hd.2.2.1 hd.2.2.2,
              mem_charts_of_ne dv di fs _ hd.1 hd.2.1 hd.2.2.1 hd.2.2.2]
            have hmid : pathJoin GRAPH_DIR (topFile m) ∈ fs5 ↔
                pathJoin GRAPH_DIR (topFile m) ∈
                  pie_chart di "Distribución de Impactos" "impactos_torta.png"
                    (bar_chart di "Impactos por Medio" "impactos_barra.png"
                      (pie_chart dv "Distribución de VPE" "vpe_torta.png"
                        (bar_chart dv "VPE por Medio" "vpe_barra.png" fs))) := by
              have hsnd := congrArg Prod.snd hTL
              dsimp only at hsnd
              rw [← hsnd]
              apply topLoop_snd_mem
              intro m' hm' hw' heqp
              have hmm : m = m' := topFile_inj_on_medios m hm m' hm' heqp
              subst hmm
              simp [hw] at hw'
            rw [hmid, mem_charts_of_ne dv di fs _ hd.1 hd.2.1 hd.2.2.1 hd.2.2.2]
          have h2 : (topLoop datos host MEDIOS
              (pie_chart di "Distribución de Impactos" "impactos_torta.png"
                (bar_chart di "Impactos por Medio" "impactos_barra.png"
                  (pie_chart dv "Distribución de VPE" "vpe_torta.png"
                    (bar_chart dv "VPE por Medio" "vpe_barra.png" fs))))).1 = res := by
            rw [hTL]
          exact (topLoop_fst_congr datos host MEDIOS _ _ hcong).trans h2
        cases res with
        | error e =>
          dsimp only
          cases hTL2 : topLoop datos host MEDIOS
              (pie_chart di "Distribución de Impactos" "impactos_torta.png"
                (bar_chart di "Impactos por Medio" "impactos_barra.png"
                  (pie_chart dv "Distribución de VPE" "vpe_torta.png"
                    (bar_chart dv "VPE por Medio" "vpe_barra.png" fs5)))) with
          | mk res2 fsb =>
            rw [hTL2] at hfst
            dsimp only at hfst
            subst hfst
            rfl
        | ok urls3 =>
          dsimp only
          cases hTL2 : topLoop datos host MEDIOS
              (pie_chart di "Distribución de Impactos" "impactos_torta.png"
                (bar_chart di "Impactos por Medio" "impactos_barra.png"
                  (pie_chart dv "Distribución de VPE" "vpe_torta.png"
                    (bar_chart dv "VPE por Medio" "vpe_barra.png" fs5)))) with
          | mk res2 fsb =>
            rw [hTL2] at hfst
            dsimp only at hfst
            subst hfst
            rfl

/-- C8: invoking the full request handler twice with the same body and host,
the second time on the filesystem the first invocation left behind, returns
an identical response — in particular an identical `archivos_generados` URL
list. -/
theorem c8_handler_idempotent (body : Except Unit Json) (host : String) (fs : FS) :
    (generar_graficos body host (generar_graficos body host fs).2).1 =
      (generar_graficos body host fs).1 := by
  cases body with
  | error u => rfl
  | ok payload =>
    by_cases ht : truthy payload = true
    · cases payload with
      | null => simp [truthy] at ht
      | bool b =>
        simp only [truthy] at ht
        simp [generar_graficos, truthy, ht]
      | int n =>
        simp only [truthy] at ht
        simp [generar_graficos, truthy, ht]
      | str s =>
        simp only [truthy] at ht
        simp [generar_graficos, truthy, ht]
      | arr l =>
        cases l with
        | nil => simp [truthy] at ht
        | cons d rest =>
          simp only [generar_graficos, truthy]
          simp
          exact processDatos_fst_stable d (rstripSlash host) fs
      | obj kvs =>
        simp only [truthy] at ht
        simp only [generar_graficos, truthy, ht]
        simp [ht]
        exact processDatos_fst_stable (.obj kvs) (rstripSlash host) fs
    · have ht' : truthy payload = false := by
        revert ht
        cases truthy payload <;> simp
      simp [generar_graficos, ht']
